import Mathlib

/-!
Verification of the core logic of the X-Plane Plugin Manager
(single source file `Plugin-App.py`).

The development shallowly embeds the plugin-lifecycle and archive
management engine: backup archive naming (`backup_plugin`, lines
328-334), the mutating store operations (`delete_plugin`,
`disable_plugin`, `backup_plugin`, `restore_plugin`,
`recover_from_zip`, `delete_backup`, `install_plugin` /
`install_from_zip` / `install_from_folder`), the log sink
(`log_output`), the plugin listing (`load_plugins`) and the version
counter (`increment_version`, modelled with exact binary64
arithmetic).

A load-bearing fact of this source: `log_output` (lines 201-211)
reads the module-level name MAX_LOG_LINES, which is never defined, so
every log append grows the in-memory history and then raises
NameError (`C7_log_output_raises`).  The operation models thread this
faithfully: each executed `log_output` call site contributes exactly
one in-memory append and then raises; a surrounding `except
Exception` handler catches it, but the handler's own logging raises
again and escapes the method.

Filesystem state is modelled explicitly; every definition is
executable so that concrete runs can be checked by `decide`.
-/

/- ===================================================================
   Decimal rendering of natural numbers.
   Models Python's `str(n)` / f-string interpolation of a nonnegative
   int, as used in `f"{folder}_{counter}.zip"` (line 332).
   =================================================================== -/

/-- Decimal digits of `n`, least significant digit first.  `fuel`
bounds the recursion; `fuel = n + 1` always suffices. -/
def decDigitsRev : Nat → Nat → List Nat
  | 0, _ => []
  | fuel+1, n => if n < 10 then [n] else n % 10 :: decDigitsRev fuel (n / 10)

/-- Value of a least-significant-first decimal digit list. -/
def ofDigitsRev : List Nat → Nat
  | [] => 0
  | d :: ds => d + 10 * ofDigitsRev ds

/-- Decimal string of a natural number, as Python renders a
nonnegative `int`. -/
def natRepr (n : Nat) : String :=
  String.mk ((decDigitsRev (n + 1) n).reverse.map Nat.digitChar)

/- ===================================================================
   CollisionNamer (backup_plugin, Plugin-App.py lines 328-334):

     zip_filename = f"{folder}.zip"
     zip_path = os.path.join(backup_path, zip_filename)
     counter = 1
     while os.path.exists(zip_path):
         zip_filename = f"{folder}_{counter}.zip"
         zip_path = os.path.join(backup_path, zip_filename)
         counter += 1

   The backup directory is modelled by the list of entry names it
   contains; `os.path.exists` is membership in that list.
   =================================================================== -/

/-- The k-th candidate archive name tried by the loop: `<base>.zip`
for k = 0, `<base>_<k>.zip` for k ≥ 1. -/
def candidateZipName (base : String) : Nat → String
  | 0 => base ++ ".zip"
  | k+1 => base ++ "_" ++ natRepr (k + 1) ++ ".zip"

/-- One step of the while loop, with explicit fuel: try candidate `k`,
advance to `k + 1` while the name exists in the directory. -/
def uniqueArchiveNameAux (base : String) (existing : List String) :
    Nat → Nat → Option String
  | 0, _ => none
  | fuel+1, k =>
      let c := candidateZipName base k
      if existing.contains c then uniqueArchiveNameAux base existing fuel (k + 1)
      else some c

/-- The archive name chosen by `backup_plugin` for base name `base`
when the backup directory holds the entries `existing`.  Fuel
`existing.length + 1` provably suffices (`uniqueArchiveNameAux_total`),
so the default of `getD` is never used. -/
def uniqueArchiveName (base : String) (existing : List String) : String :=
  (uniqueArchiveNameAux base existing (existing.length + 1) 0).getD
    (candidateZipName base 0)

/- ===================================================================
   PluginStore.list (load_plugins, Plugin-App.py lines 238-254):

     plugins = []
     for folder in os.listdir(plugin_path):
         if os.path.isdir(os.path.join(plugin_path, folder)):
             plugins.append(folder)
     plugins.sort(key=str.lower)

   The directory listing is modelled by the list of (name, isDirectory)
   pairs that `os.listdir` + `os.path.isdir` produce, in listing order.
   Python's `list.sort` is a stable comparison sort; a stable sort's
   output is uniquely determined by the ordering relation and the input
   order, so it is modelled by insertion sort over the key relation.
   `str.lower` is modelled per character (`Char.toLower`, which covers
   the ASCII range); Python string `<=` compares code points
   lexicographically.
   =================================================================== -/

/-- Lexicographic code-point comparison of character lists, the order
Python uses on strings. -/
def chLe : List Char → List Char → Bool
  | [], _ => true
  | _ :: _, [] => false
  | a :: as, b :: bs => if a = b then chLe as bs else decide (a < b)

/-- Characters of a string after `str.lower` (per-character lowering,
covering the ASCII range the plugin names use). -/
def lowerChars (s : String) : List Char := s.data.map Char.toLower

/-- The key relation of `plugins.sort(key=str.lower)`: compare the
lowercased strings lexicographically. -/
def lowerLe (a b : String) : Prop :=
  chLe (lowerChars a) (lowerChars b) = true

instance : DecidableRel lowerLe := fun a b => by
  unfold lowerLe; infer_instance

/-- The plugin list computed by `load_plugins`: names of the directory
entries (non-directories ignored), sorted case-insensitively. -/
def load_plugins (entries : List (String × Bool)) : List String :=
  List.insertionSort lowerLe ((entries.filter (fun e => e.2)).map (fun e => e.1))

/- ===================================================================
   Files and byte sizes (backup_plugin lines 341-345):

     total_size = sum of os.path.getsize over all files under os.walk

   A file is a path (list of components) with byte contents; a
   directory tree is the list of its files with relative paths.
   =================================================================== -/

abbrev Bytes := List Nat

abbrev FPath := List String

/-- Total byte size of a file collection (`total_size` in
`backup_plugin`). -/
def treeSize (t : List (FPath × Bytes)) : Nat :=
  (t.map (fun f => f.2.length)).sum

/- ===================================================================
   PluginStore operations.

   The on-disk state the operations touch is: the plugin directories
   under `pluginRoot` and the entries (folders or archives) in the
   backup directory.  A plugin directory is its list of files
   (relative path, contents); a backup entry is either an intact
   folder or a zip archive, the archive possibly unreadable.

   Each operation returns the new state, the in-memory `log_output`
   appends it performs (one `Msg` constructor per reachable f-string
   call site), the number of `increment_version` calls, and the
   exception propagating out of the method, if any.
   `increment_version` itself never raises (its body is wrapped in
   try/except ValueError), so an operation's version count is the
   number of calls.

   `log_output` appends its line in memory and then raises NameError
   — MAX_LOG_LINES is an unbound name (see `log_output` and
   `C7_log_output_raises`).  So in every method the first `log_output`
   call site on a path ends its straight-line execution: outside a
   try block the NameError escapes the method at once; inside one,
   `except Exception` catches it, but the handler's own `log_output`
   appends once more and its NameError escapes.  All code behind the
   first logging call site of a path is unreachable; only the
   log-free paths (`delete_plugin`, `disable_plugin`, the Keep branch
   of install) can finish without an escaping exception.
   =================================================================== -/

abbrev FileTree := List (FPath × Bytes)

inductive BEntry
  | dir (t : FileTree)
  | zipFile (a : Option FileTree)
deriving DecidableEq

structure Store where
  plugins : List (String × FileTree)
  backups : List (String × BEntry)
deriving DecidableEq

inductive PyErr
  | fileNotFound
  | badZip
  | osError
  | nameError
  | valueError
  | typeError
deriving DecidableEq

/-- One constructor per *reachable* `log_output(f"...")` call site,
carrying the interpolated data.  The call sites behind the first
raising log of each method (e.g. lines 337-338, 347-370, 480-512,
522-531, 542-568) can never execute and so need no constructor. -/
inductive Msg
  | errorPluginNotFound (folder : String)
  | backingUp (folder : String)
  | restoring (item : String)
  | deletingBackup (item : String)
  | recovering (zf : String)
  | installedZip (name : String)
  | errorInstallZip
  | installedFolder (name : String)
  | errorInstallFolder
deriving DecidableEq

/-- Result of running one operation: final state, the in-memory
`log_output` appends that occurred, the `increment_version` calls,
and the exception escaping the method. -/
structure OpTrace where
  store : Store
  logs : List Msg
  incs : Nat
  raised : Option PyErr
deriving DecidableEq

def getPlugin (st : Store) (name : String) : Option FileTree :=
  (st.plugins.find? (fun p => p.1 == name)).map (fun p => p.2)

def removePlugin (st : Store) (name : String) : Store :=
  ⟨st.plugins.filter (fun p => !(p.1 == name)), st.backups⟩

/-- Write a whole plugin directory (add or replace). -/
def setPlugin (st : Store) (name : String) (t : FileTree) : Store :=
  ⟨(removePlugin st name).plugins ++ [(name, t)], st.backups⟩

def getBackup (st : Store) (name : String) : Option BEntry :=
  (st.backups.find? (fun b => b.1 == name)).map (fun b => b.2)

def removeBackup (st : Store) (name : String) : Store :=
  ⟨st.plugins, st.backups.filter (fun b => !(b.1 == name))⟩

/-- Replace the contents of an existing backup folder entry. -/
def setBackupDir (st : Store) (name : String) (t : FileTree) : Store :=
  ⟨st.plugins, (removeBackup st name).backups ++ [(name, .dir t)]⟩

/-- `shutil.move` of a tree into an already existing directory named
`name`: the moved tree lands nested inside it. -/
def nestInto (name : String) (t : FileTree) : FileTree :=
  t.map (fun f => (name :: f.1, f.2))

/-- `delete_plugin` (lines 306-311): `increment_version()`, then
`shutil.rmtree(plugin_path)` with no exception handler and no
`log_output` call; `rmtree` raises `FileNotFoundError` when the
directory is absent and the exception leaves the method. -/
def delete_plugin (st : Store) (folder : String) : OpTrace :=
  match getPlugin st folder with
  | none => ⟨st, [], 1, some .fileNotFound⟩
  | some _ => ⟨removePlugin st folder, [], 1, none⟩

/-- `disable_plugin` (lines 374-384): `increment_version()`, then
`shutil.move(plugin_path, backup_path/folder)` with no handler and no
`log_output` call.  `move` raises when the source is absent; moving
onto an existing directory nests the source inside it; moving onto an
existing non-directory raises. -/
def disable_plugin (st : Store) (folder : String) : OpTrace :=
  match getPlugin st folder with
  | none => ⟨st, [], 1, some .fileNotFound⟩
  | some t =>
    match getBackup st folder with
    | none =>
        ⟨⟨(removePlugin st folder).plugins, st.backups ++ [(folder, .dir t)]⟩, [], 1, none⟩
    | some (.dir bt) =>
        ⟨⟨(removePlugin st folder).plugins,
          (setBackupDir st folder (bt ++ nestInto folder t)).backups⟩, [], 1, none⟩
    | some (.zipFile _) => ⟨st, [], 1, some .osError⟩

/-- `backup_plugin` (lines 313-372): `increment_version()` (line 314),
existence check; when the plugin is absent, the error log at line 318
appends once and its NameError escapes (there is no try yet).  When it
exists, `os.makedirs` (326, no tracked effect on the entry list) and
the pure naming loop (328-334, modelled by `uniqueArchiveName`) run,
then the first log at line 336 appends "Backing up plugin: ..." and
its NameError escapes — before the try at 340, the size computation,
the EmptySource branch (349-351) and the zip-writing loop (353-358),
which are all unreachable.  No archive is ever created. -/
def backup_plugin (st : Store) (folder : String) : OpTrace :=
  match getPlugin st folder with
  | none => ⟨st, [.errorPluginNotFound folder], 1, some .nameError⟩
  | some _ => ⟨st, [.backingUp folder], 1, some .nameError⟩

/-- `restore_plugin` (lines 471-513): `increment_version()` (472),
then the first log at line 479 appends "Restoring plugin: ..." and its
NameError escapes — before the zip/folder branch and both try blocks;
no extraction or move ever happens. -/
def restore_plugin (st : Store) (item : String) : OpTrace :=
  ⟨st, [.restoring item], 1, some .nameError⟩

/-- `recover_from_zip` (lines 535-571): no `increment_version` call;
the first log at line 541 appends "Recovering plugin from zip: ..."
and its NameError escapes — before the try at 551, so the archive is
never opened and the pre-existing target (lines 553-557) is never
checked, logged or removed. -/
def recover_from_zip (st : Store) (zf : String) : OpTrace :=
  ⟨st, [.recovering zf], 0, some .nameError⟩

/-- `delete_backup` (lines 515-533): no `increment_version` call; the
first log at line 521 appends "Deleting backup: ..." and its NameError
escapes — before the try at 524, so the backup entry is never
removed. -/
def delete_backup (st : Store) (item : String) : OpTrace :=
  ⟨st, [.deletingBackup item], 0, some .nameError⟩

/-- The caller's answer to the `QMessageBox` "Plugin exists. Replace?"
dialog in `install_from_zip`. -/
inductive Decision
  | replace
  | keep
deriving DecidableEq

/-- Shared tail of `install_from_zip` (lines 732-746): `os.makedirs`
creates the (empty) target directory, then the archive is opened and
extracted.  An unreadable archive leaves the created empty directory
in place; the `except Exception` handler's log (745) appends once and
its NameError escapes.  On a readable archive the extraction is
persisted, then the success log (739) appends once and raises; the
handler catches that NameError, its own log (745) appends once more
and the NameError escapes the method. -/
def install_extract (st : Store) (name : String) (src : Option FileTree) : OpTrace :=
  match src with
  | none => ⟨setPlugin st name [], [.errorInstallZip], 0, some .nameError⟩
  | some a => ⟨setPlugin st name a, [.installedZip name, .errorInstallZip], 0, some .nameError⟩

/-- `install_from_zip` (lines 715-746): when the target plugin exists,
the conflict dialog decides; No/Keep returns immediately — before
`makedirs` and extraction, with no `log_output` call; Yes/Replace
removes the target recursively and proceeds. -/
def install_from_zip (st : Store) (name : String) (src : Option FileTree)
    (d : Decision) : OpTrace :=
  match getPlugin st name, d with
  | some _, .keep => ⟨st, [], 0, none⟩
  | some _, .replace => install_extract (removePlugin st name) name src
  | none, _ => install_extract st name src

/-- `install_from_folder` (lines 748-774): same conflict handling as
the zip path (Keep returns before any log, so it alone is clean),
then `shutil.copytree(..., dirs_exist_ok=True)`.  A missing source
directory makes `copytree` fail before creating anything (after
Replace already removed the target); the handler's log (773) appends
once and its NameError escapes.  On success the copy is persisted,
the success log (767) appends and raises, the handler's log (773)
appends and its NameError escapes. -/
def install_from_folder (st : Store) (name : String) (src : Option FileTree)
    (d : Decision) : OpTrace :=
  match getPlugin st name, d with
  | some _, .keep => ⟨st, [], 0, none⟩
  | some _, .replace =>
      match src with
      | none => ⟨removePlugin st name, [.errorInstallFolder], 0, some .nameError⟩
      | some a =>
          ⟨setPlugin (removePlugin st name) name a,
            [.installedFolder name, .errorInstallFolder], 0, some .nameError⟩
  | none, _ =>
      match src with
      | none => ⟨st, [.errorInstallFolder], 0, some .nameError⟩
      | some a =>
          ⟨setPlugin st name a, [.installedFolder name, .errorInstallFolder], 0,
            some .nameError⟩

/-- `install_plugin` (lines 683-707): `increment_version()` happens
first, before the file dialog and before any conflict check, then the
work is dispatched to `install_from_zip`. -/
def install_plugin_zip (st : Store) (name : String) (src : Option FileTree)
    (d : Decision) : OpTrace :=
  let r := install_from_zip st name src d
  ⟨r.store, r.logs, r.incs + 1, r.raised⟩

/-- `install_plugin` dispatching to `install_from_folder` for a
directory source. -/
def install_plugin_folder (st : Store) (name : String) (src : Option FileTree)
    (d : Decision) : OpTrace :=
  let r := install_from_folder st name src d
  ⟨r.store, r.logs, r.incs + 1, r.raised⟩

/- ===================================================================
   LogSink (log_output, Plugin-App.py lines 201-211):

     log_message = f"[{timestamp}] {message}"
     ...
     self.log_history.append(log_message)
     if len(self.log_history) > MAX_LOG_LINES:
         self.log_history = self.log_history[-MAX_LOG_LINES:]
     self.save_log_history()

   Line 209 reads the module-level name MAX_LOG_LINES.  Name
   resolution over the module's global bindings is modelled
   explicitly, because the source never defines that name.
   =================================================================== -/

inductive PyVal
  | str (s : String)
  | int (n : Nat)
deriving DecidableEq

/-- The module-level constant bindings of Plugin-App.py.  The only one
is `INITIAL_VERSION = "0.002"` (line 32); in particular there is no
binding for `MAX_LOG_LINES`. -/
def moduleGlobals : List (String × PyVal) :=
  [("INITIAL_VERSION", .str "0.002")]

def lookupGlobal (name : String) : Option PyVal :=
  (moduleGlobals.find? (fun g => g.1 == name)).map (fun g => g.2)

/-- `log_output`: append the timestamped line (line 208 succeeds
unconditionally), then truncate to the most recent `MAX_LOG_LINES`
entries.  Evaluating the truncation bound looks up `MAX_LOG_LINES`;
an unbound name raises `NameError`, an `int` bound `m` truncates
(Python's `h[-m:]` keeps the last `m` entries for `m > 0` and the
whole list for `m = 0`), a non-int bound would make the `>`
comparison raise `TypeError`.  Returns the in-memory history after
the call together with the exception escaping it, if any. -/
def log_output (history : List String) (timestamp message : String) :
    List String × Option PyErr :=
  let line := "[" ++ timestamp ++ "] " ++ message
  let h := history ++ [line]
  match lookupGlobal "MAX_LOG_LINES" with
  | none => (h, some .nameError)
  | some (.int m) =>
      ((if h.length > m then (if m = 0 then h else h.drop (h.length - m)) else h), none)
  | some (.str _) => (h, some .typeError)

/- ===================================================================
   VersionCounter (increment_version, Plugin-App.py lines 776-787):

     try:
         current = float(self.version)
         new_version = f"{current + 0.001:.3f}"
         ...
         return new_version
     except ValueError:
         return self.version

   Python floats are IEEE-754 binary64 values.  They are modelled as
   exact rationals on the binary64 grid: `float(s)` and `+` round
   their exact rational results to the nearest representable value
   (ties to even, overflow to infinity, subnormal quantum 2^-1074),
   and `:.3f` rounds the exact value to three decimals, ties to even —
   the correctly-rounded semantics CPython implements.  Rationals are
   carried as unnormalised numerator/denominator pairs so every step
   is kernel-computable.
   =================================================================== -/

/-- An unnormalised rational: `num / den`, with `den` positive by
construction in every use below. -/
structure Frac where
  num : Int
  den : Nat
deriving DecidableEq

def Frac.neg (a : Frac) : Frac := ⟨-a.num, a.den⟩

def Frac.add (a b : Frac) : Frac :=
  ⟨a.num * (b.den : Int) + b.num * (a.den : Int), a.den * b.den⟩

def Frac.lt (a b : Frac) : Bool :=
  decide (a.num * (b.den : Int) < b.num * (a.den : Int))

def Frac.le (a b : Frac) : Bool :=
  decide (a.num * (b.den : Int) ≤ b.num * (a.den : Int))

def Frac.double (a : Frac) : Frac := ⟨a.num * 2, a.den⟩

def Frac.half (a : Frac) : Frac := ⟨a.num, a.den * 2⟩

def Frac.floor (a : Frac) : Int := Int.fdiv a.num (a.den : Int)

/-- Round a rational to the nearest integer, ties to even — the
rounding both IEEE-754 arithmetic and CPython's float formatting
use. -/
def halfEvenInt (a : Frac) : Int :=
  let fl := a.floor
  let r2 : Int := 2 * (a.num - fl * (a.den : Int))
  if r2 < (a.den : Int) then fl
  else if (a.den : Int) < r2 then fl + 1
  else if fl % 2 = 0 then fl else fl + 1

def pow2Nat : Nat → Nat
  | 0 => 1
  | n+1 => 2 * pow2Nat n

def pow10Nat : Nat → Nat
  | 0 => 1
  | n+1 => 10 * pow10Nat n

/-- Binary exponent search, upward: double `p` while `2p ≤ a`. -/
def expLoopUp (a : Frac) : Int → Frac → Nat → Int × Frac
  | e, p, 0 => (e, p)
  | e, p, fuel+1 =>
      if Frac.le (Frac.double p) a then expLoopUp a (e + 1) (Frac.double p) fuel
      else (e, p)

/-- Binary exponent search, downward: halve `p` while `a < p`. -/
def expLoopDown (a : Frac) : Int → Frac → Nat → Int × Frac
  | e, p, 0 => (e, p)
  | e, p, fuel+1 =>
      if Frac.lt a p then expLoopDown a (e - 1) (Frac.half p) fuel
      else (e, p)

/-- Ample fuel: covers every binary64 exponent with margin. -/
def normFuel : Nat := 2200

/-- For positive `a`, the pair `(e, 2^e)` with `2^e ≤ a < 2^(e+1)`. -/
def findExp (a : Frac) : Int × Frac :=
  if Frac.lt a ⟨1, 1⟩ then expLoopDown a 0 ⟨1, 1⟩ normFuel
  else expLoopUp a 0 ⟨1, 1⟩ normFuel

/-- A Python float value. -/
inductive PyFloat
  | finite (q : Frac)
  | pinf
  | ninf
  | nan
deriving DecidableEq

/-- Correctly round a positive rational to the binary64 grid:
quantum 2^(e-52) for normal values, 2^-1074 below the normal range,
ties to even, overflow to +inf at 2^1024. -/
def roundPos (a : Frac) : PyFloat :=
  let ep := findExp a
  let quantum : Frac :=
    if ep.1 < -1022 then ⟨1, pow2Nat 1074⟩
    else ⟨ep.2.num, ep.2.den * 4503599627370496⟩
  let n := halfEvenInt ⟨a.num * (quantum.den : Int), a.den * quantum.num.toNat⟩
  let r : Frac := ⟨n * quantum.num, quantum.den⟩
  if Frac.le ⟨(pow2Nat 1024 : Nat), 1⟩ r then .pinf else .finite r

/-- Correctly round any rational to binary64. -/
def roundToDouble (a : Frac) : PyFloat :=
  if a.num = 0 then .finite ⟨0, 1⟩
  else if 0 < a.num then roundPos a
  else
    match roundPos (Frac.neg a) with
    | .finite r => .finite (Frac.neg r)
    | .pinf => .ninf
    | x => x

/-- IEEE-754 addition of Python floats. -/
def addPy : PyFloat → PyFloat → PyFloat
  | .nan, _ => .nan
  | _, .nan => .nan
  | .pinf, .ninf => .nan
  | .ninf, .pinf => .nan
  | .pinf, _ => .pinf
  | _, .pinf => .pinf
  | .ninf, _ => .ninf
  | _, .ninf => .ninf
  | .finite a, .finite b => roundToDouble (Frac.add a b)

def negPy : PyFloat → PyFloat
  | .finite q => .finite (Frac.neg q)
  | .pinf => .ninf
  | .ninf => .pinf
  | .nan => .nan

/-- Whitespace stripped by `float(str)` (ASCII range). -/
def isPyWs (c : Char) : Bool :=
  c == ' ' || c == '\t' || c == '\n' || c == '\r' || c.toNat == 11 || c.toNat == 12

def stripWs (l : List Char) : List Char :=
  ((l.dropWhile isPyWs).reverse.dropWhile isPyWs).reverse

/-- A run of decimal digits with Python's underscore grouping: an
underscore is consumed only when it sits between two digits.  Returns
the digit values and the unconsumed rest. -/
def digitsRunF : Nat → List Char → List Nat × List Char
  | 0, l => ([], l)
  | _+1, [] => ([], [])
  | fuel+1, c :: cs =>
      if c.isDigit then
        match cs with
        | '_' :: c3 :: cs2 =>
            if c3.isDigit then
              let r := digitsRunF fuel (c3 :: cs2)
              ((c.toNat - 48) :: r.1, r.2)
            else ((c.toNat - 48) :: [], '_' :: c3 :: cs2)
        | _ =>
            let r := digitsRunF fuel cs
            ((c.toNat - 48) :: r.1, r.2)
      else ([], c :: cs)

def digitsRun (l : List Char) : List Nat × List Char :=
  digitsRunF l.length l

def digitsVal (ds : List Nat) : Nat :=
  ds.foldl (fun acc d => 10 * acc + d) 0

/-- Exact value of mantissa digits `ip . fp` scaled by `10^±e`,
rounded to binary64. -/
def finiteOf (ip fp : List Nat) (e : Nat) (epos : Bool) : PyFloat :=
  let m : Nat := digitsVal (ip ++ fp)
  let den0 : Nat := pow10Nat fp.length
  let v : Frac :=
    if epos then ⟨(Int.ofNat (m * pow10Nat e)), den0⟩
    else ⟨Int.ofNat m, den0 * pow10Nat e⟩
  roundToDouble v

/-- Exponent part after `e`/`E`: optional sign and a digit run that
must consume everything. -/
def parseExpDigits (ip fp : List Nat) (rest : List Char) : Option PyFloat :=
  let se : Bool × List Char :=
    match rest with
    | '+' :: r => (true, r)
    | '-' :: r => (false, r)
    | r => (true, r)
  let rd := digitsRun se.2
  if rd.1.isEmpty then none
  else if !rd.2.isEmpty then none
  else some (finiteOf ip fp (digitsVal rd.1) se.1)

/-- Optional exponent after the mantissa. -/
def parseAfterMantissa (ip fp : List Nat) (rest : List Char) : Option PyFloat :=
  match rest with
  | [] => some (finiteOf ip fp 0 true)
  | 'e' :: rest2 => parseExpDigits ip fp rest2
  | 'E' :: rest2 => parseExpDigits ip fp rest2
  | _ => none

/-- Body of a float literal after the sign: `inf`, `infinity`, `nan`
(case-insensitive), or digits with an optional point, fraction and
exponent; at least one mantissa digit is required. -/
def parseBody (l : List Char) : Option PyFloat :=
  let low := l.map Char.toLower
  if low = ['i', 'n', 'f'] ∨ low = ['i', 'n', 'f', 'i', 'n', 'i', 't', 'y'] then
    some .pinf
  else if low = ['n', 'a', 'n'] then some .nan
  else
    let r1 := digitsRun l
    match r1.2 with
    | '.' :: rest2 =>
        let r2 := digitsRun rest2
        if r1.1.isEmpty ∧ r2.1.isEmpty then none
        else parseAfterMantissa r1.1 r2.1 r2.2
    | _ =>
        if r1.1.isEmpty then none
        else parseAfterMantissa r1.1 [] r1.2

/-- `float(s)` for a string: strip whitespace, optional sign, body;
`none` models ValueError.  (Covers the ASCII literal forms; the app
itself only ever stores three-decimal outputs of `:.3f`.) -/
def pyFloatOfString (s : String) : Option PyFloat :=
  match stripWs s.data with
  | '+' :: r => parseBody r
  | '-' :: r => (parseBody r).map negPy
  | r => parseBody r

def pad3 (n : Nat) : String :=
  if n < 10 then "00" ++ natRepr n
  else if n < 100 then "0" ++ natRepr n
  else natRepr n

/-- `f"{x:.3f}"`: round the exact value to three decimals (ties to
even) and print with exactly three fractional digits; the sign is
taken from the value. -/
def formatF3 : PyFloat → String
  | .pinf => "inf"
  | .ninf => "-inf"
  | .nan => "nan"
  | .finite q =>
      let neg := decide (q.num < 0)
      let a : Frac := if neg then Frac.neg q else q
      let n := (halfEvenInt ⟨a.num * 1000, a.den⟩).toNat
      (if neg then "-" else "") ++ natRepr (n / 1000) ++ "." ++ pad3 (n % 1000)

/-- The double denoted by the literal `0.001` on line 780. -/
def float0001 : PyFloat := roundToDouble ⟨1, 1000⟩

/-- `increment_version`: parse the persisted version as a float, add
0.001, format to three decimal places; a ValueError from `float()` is
caught and the prior version returned unchanged. -/
def increment_version (version : String) : String :=
  match pyFloatOfString version with
  | none => version
  | some f => formatF3 (addPy f float0001)

/- ===================================================================
   THEOREMS
   =================================================================== -/

theorem chLe_total : ∀ as bs : List Char, chLe as bs = true ∨ chLe bs as = true := by
  intro as
  induction as with
  | nil => intro bs; left; rfl
  | cons a as ih =>
    intro bs
    cases bs with
    | nil => right; rfl
    | cons b bs =>
      by_cases hab : a = b
      · subst hab
        rcases ih bs with h | h
        · left; simpa [chLe] using h
        · right; simpa [chLe] using h
      · have hne : b ≠ a := fun h => hab h.symm
        rcases lt_or_gt_of_ne hab with h | h
        · left; simp [chLe, hab, h]
        · right; simp [chLe, hne, h]

theorem chLe_trans : ∀ as bs cs : List Char,
    chLe as bs = true → chLe bs cs = true → chLe as cs = true := by
  intro as
  induction as with
  | nil => intro bs cs _ _; rfl
  | cons a as ih =>
    intro bs cs h1 h2
    cases bs with
    | nil => simp [chLe] at h1
    | cons b bs =>
      cases cs with
      | nil => simp [chLe] at h2
      | cons c cs =>
        by_cases hab : a = b <;> by_cases hbc : b = c
        · subst hab; subst hbc
          simp only [chLe, if_pos rfl] at h1 h2 ⊢
          exact ih bs cs h1 h2
        · subst hab
          simp only [chLe, if_neg hbc, decide_eq_true_eq] at h2
          simp [chLe, hbc, h2]
        · subst hbc
          simp only [chLe, if_neg hab, decide_eq_true_eq] at h1
          simp [chLe, hab, h1]
        · simp only [chLe, if_neg hab, decide_eq_true_eq] at h1
          simp only [chLe, if_neg hbc, decide_eq_true_eq] at h2
          have hac : a < c := lt_trans h1 h2
          have hne : a ≠ c := ne_of_lt hac
          simp [chLe, hne, hac]

instance : IsTotal String lowerLe :=
  ⟨fun a b => chLe_total (lowerChars a) (lowerChars b)⟩

instance : IsTrans String lowerLe :=
  ⟨fun a b c => chLe_trans (lowerChars a) (lowerChars b) (lowerChars c)⟩

/-- Claim C9: `load_plugins` returns exactly the names of the directory
entries directly under the plugin root (non-directory entries ignored),
sorted case-insensitively lexicographically; the inputs "Beta", "alpha",
"Gamma" yield ["alpha", "Beta", "Gamma"]. -/
theorem C9_load_plugins :
    (∀ entries : List (String × Bool),
      (load_plugins entries).Perm ((entries.filter (fun e => e.2)).map (fun e => e.1)) ∧
      List.Sorted lowerLe (load_plugins entries)) ∧
    load_plugins [("Beta", true), ("alpha", true), ("Gamma", true)] =
      ["alpha", "Beta", "Gamma"] ∧
    load_plugins [("Beta", true), ("alpha", true), ("notes.txt", false), ("Gamma", true)] =
      ["alpha", "Beta", "Gamma"] := by
  refine ⟨fun entries => ⟨List.perm_insertionSort _ _, List.sorted_insertionSort _ _⟩,
    by decide, by decide⟩

theorem ofDigitsRev_decDigitsRev : ∀ fuel n, n < fuel →
    ofDigitsRev (decDigitsRev fuel n) = n := by
  intro fuel
  induction fuel with
  | zero => intro n h; omega
  | succ f ih =>
    intro n h
    by_cases h10 : n < 10
    · simp [decDigitsRev, h10, ofDigitsRev]
    · have hpos : 0 < n := by omega
      have hdiv : n / 10 < n := Nat.div_lt_self hpos (by omega)
      have hrec := ih (n / 10) (by omega)
      simp only [decDigitsRev, h10, if_false, ofDigitsRev, hrec]
      omega

theorem decDigitsRev_lt : ∀ fuel n d, d ∈ decDigitsRev fuel n → d < 10 := by
  intro fuel
  induction fuel with
  | zero => intro n d h; simp [decDigitsRev] at h
  | succ f ih =>
    intro n d h
    by_cases h10 : n < 10
    · simp [decDigitsRev, h10] at h; omega
    · simp only [decDigitsRev, h10, if_false, List.mem_cons] at h
      rcases h with h | h
      · omega
      · exact ih _ _ h

theorem decDigitsRev_ne_nil (n : Nat) : decDigitsRev (n + 1) n ≠ [] := by
  by_cases h10 : n < 10 <;> simp [decDigitsRev, h10]

theorem digitChar_inj :
    ∀ a, a < 10 → ∀ b, b < 10 → Nat.digitChar a = Nat.digitChar b → a = b := by
  decide

theorem map_digitChar_inj : ∀ xs ys : List Nat,
    (∀ d ∈ xs, d < 10) → (∀ d ∈ ys, d < 10) →
    xs.map Nat.digitChar = ys.map Nat.digitChar → xs = ys := by
  intro xs
  induction xs with
  | nil => intro ys _ _ h; cases ys <;> simp_all
  | cons x xs ih =>
    intro ys hx hy h
    cases ys with
    | nil => simp at h
    | cons y ys =>
      simp only [List.map_cons, List.cons.injEq] at h
      have hx0 := hx x (by simp)
      have hy0 := hy y (by simp)
      have : x = y := digitChar_inj x hx0 y hy0 h.1
      subst this
      have := ih ys (fun d hd => hx d (by simp [hd])) (fun d hd => hy d (by simp [hd])) h.2
      simp [this]

theorem natRepr_inj : ∀ a b : Nat, natRepr a = natRepr b → a = b := by
  intro a b h
  unfold natRepr at h
  have hdata : ((decDigitsRev (a + 1) a).reverse.map Nat.digitChar) =
      ((decDigitsRev (b + 1) b).reverse.map Nat.digitChar) :=
    congrArg String.data h
  have hrev : (decDigitsRev (a + 1) a).reverse = (decDigitsRev (b + 1) b).reverse :=
    map_digitChar_inj _ _
      (fun d hd => decDigitsRev_lt _ _ _ (List.mem_reverse.mp hd))
      (fun d hd => decDigitsRev_lt _ _ _ (List.mem_reverse.mp hd)) hdata
  have hdig : decDigitsRev (a + 1) a = decDigitsRev (b + 1) b :=
    List.reverse_injective hrev
  have := congrArg ofDigitsRev hdig
  rwa [ofDigitsRev_decDigitsRev _ _ (Nat.lt_succ_self a),
       ofDigitsRev_decDigitsRev _ _ (Nat.lt_succ_self b)] at this

theorem natRepr_length_pos (n : Nat) : 0 < (natRepr n).length := by
  unfold natRepr
  have h := decDigitsRev_ne_nil n
  rcases hd : decDigitsRev (n + 1) n with _ | ⟨d, ds⟩
  · exact absurd hd h
  · simp [String.length, hd]

theorem candidateZipName_inj (base : String) :
    ∀ j k, candidateZipName base j = candidateZipName base k → j = k := by
  have hz : (".zip" : String).length = 4 := by decide
  have hu : ("_" : String).length = 1 := by decide
  have hlen : ∀ m : Nat, (candidateZipName base (m + 1)).length =
      base.length + (natRepr (m + 1)).length + 5 := by
    intro m
    simp [candidateZipName, String.length_append, hz, hu]
    omega
  intro j k h
  match j, k with
  | 0, 0 => rfl
  | 0, k+1 =>
    have := congrArg String.length h
    rw [hlen k] at this
    simp [candidateZipName, String.length_append, hz] at this
    have := natRepr_length_pos (k + 1)
    omega
  | j+1, 0 =>
    have := congrArg String.length h
    rw [hlen j] at this
    simp [candidateZipName, String.length_append, hz] at this
    have := natRepr_length_pos (j + 1)
    omega
  | j+1, k+1 =>
    have hdata := congrArg String.data h
    simp only [candidateZipName, String.data_append] at hdata
    have h1 := List.append_cancel_right hdata
    have h2 := List.append_cancel_left h1
    have : natRepr (j + 1) = natRepr (k + 1) := by
      have ha : natRepr (j + 1) = String.mk (natRepr (j + 1)).data := rfl
      have hb : natRepr (k + 1) = String.mk (natRepr (k + 1)).data := rfl
      rw [ha, hb, h2]
    have := natRepr_inj _ _ this
    omega

theorem uniqueArchiveNameAux_spec (base : String) (existing : List String) :
    ∀ fuel k c, uniqueArchiveNameAux base existing fuel k = some c →
      existing.contains c = false ∧
      ∃ j, k ≤ j ∧ c = candidateZipName base j ∧
        ∀ i, k ≤ i → i < j → existing.contains (candidateZipName base i) = true := by
  intro fuel
  induction fuel with
  | zero => intro k c h; simp [uniqueArchiveNameAux] at h
  | succ f ih =>
    intro k c h
    simp only [uniqueArchiveNameAux] at h
    by_cases hc : existing.contains (candidateZipName base k)
    · rw [if_pos hc] at h
      obtain ⟨hfree, j, hkj, hcand, hall⟩ := ih (k + 1) c h
      refine ⟨hfree, j, by omega, hcand, ?_⟩
      intro i hki hij
      by_cases hik : i = k
      · subst hik; exact hc
      · exact hall i (by omega) hij
    · rw [if_neg hc] at h
      cases h
      exact ⟨by simpa using hc, k, le_refl k, rfl, fun i h1 h2 => by omega⟩

theorem uniqueArchiveNameAux_none (base : String) (existing : List String) :
    ∀ fuel k, uniqueArchiveNameAux base existing fuel k = none →
      ∀ i, k ≤ i → i < k + fuel →
        existing.contains (candidateZipName base i) = true := by
  intro fuel
  induction fuel with
  | zero => intro k h i h1 h2; omega
  | succ f ih =>
    intro k h i h1 h2
    simp only [uniqueArchiveNameAux] at h
    by_cases hc : existing.contains (candidateZipName base k)
    · rw [if_pos hc] at h
      by_cases hik : i = k
      · subst hik; exact hc
      · exact ih (k + 1) h i (by omega) (by omega)
    · rw [if_neg hc] at h
      cases h

theorem uniqueArchiveNameAux_total (base : String) (existing : List String) :
    ∀ fuel k, existing.length < fuel →
      ∃ c, uniqueArchiveNameAux base existing fuel k = some c := by
  intro fuel k hlt
  rcases hres : uniqueArchiveNameAux base existing fuel k with _ | c
  · exfalso
    have hall := uniqueArchiveNameAux_none base existing fuel k hres
    -- pigeonhole: `fuel` distinct candidate names all sit in `existing`
    have hmem : ∀ i ∈ Finset.range fuel,
        candidateZipName base (k + i) ∈ existing := by
      intro i hi
      have := hall (k + i) (by omega) (by simp at hi; omega)
      simpa [List.elem_iff] using this
    have hsub : (Finset.range fuel).image (fun i => candidateZipName base (k + i)) ⊆
        existing.toFinset := by
      intro c hc
      simp only [Finset.mem_image] at hc
      obtain ⟨i, hi, rfl⟩ := hc
      simpa [List.mem_toFinset] using hmem i hi
    have hcard : ((Finset.range fuel).image
        (fun i => candidateZipName base (k + i))).card = fuel := by
      rw [Finset.card_image_of_injOn, Finset.card_range]
      intro i _ j _ hij
      have := candidateZipName_inj base (k + i) (k + j) hij
      omega
    have h1 := Finset.card_le_card hsub
    have h2 := List.toFinset_card_le existing
    omega
  · exact ⟨c, rfl⟩

/-- Claim C5: `uniqueArchiveName` is deterministic (it is a function) and
returns the first free name in the sequence `<base>.zip`, `<base>_1.zip`,
`<base>_2.zip`, ...; for base name "Foo" it returns "Foo.zip" when that
name is absent, "Foo_1.zip" when "Foo.zip" exists, "Foo_2.zip" when both
exist; and the returned name never collides with an existing entry. -/
theorem C5_uniqueArchiveName :
    uniqueArchiveName "Foo" [] = "Foo.zip" ∧
    uniqueArchiveName "Foo" ["Foo.zip"] = "Foo_1.zip" ∧
    uniqueArchiveName "Foo" ["Foo.zip", "Foo_1.zip"] = "Foo_2.zip" ∧
    ∀ base existing,
      existing.contains (uniqueArchiveName base existing) = false ∧
      ∃ j, uniqueArchiveName base existing = candidateZipName base j ∧
        ∀ i, i < j → existing.contains (candidateZipName base i) = true := by
  refine ⟨by decide, by decide, by decide, ?_⟩
  intro base existing
  obtain ⟨c, hc⟩ := uniqueArchiveNameAux_total base existing
    (existing.length + 1) 0 (by omega)
  obtain ⟨hfree, j, _, hcand, hall⟩ :=
    uniqueArchiveNameAux_spec base existing _ _ _ hc
  have hval : uniqueArchiveName base existing = c := by
    simp [uniqueArchiveName, hc]
  exact ⟨by rw [hval]; exact hfree,
         j, by rw [hval]; exact hcand,
         fun i hij => hall i (by omega) hij⟩

/-- Claim C1 concerns a code bug: the pack/unpack round trip is
unreachable.  `backup_plugin` on an existing plugin of positive size
appends one in-memory log line and raises NameError at line 336 —
before its try block, the size computation and the zip-writing loop
(353-358, whose own in-loop `log_output` at 359 would abort after
the first file even if reached) — so no archive is ever produced and
the store is unchanged; `restore_plugin` likewise raises at line 479
before any extraction or move. -/
theorem C1_roundtrip_unreachable (st : Store) (folder : String) (t : FileTree)
    (hp : getPlugin st folder = some t) (_hsize : 0 < treeSize t) :
    ((backup_plugin st folder).raised = some .nameError ∧
      (backup_plugin st folder).store = st) ∧
    ∀ st2 item, (restore_plugin st2 item).raised = some .nameError ∧
      (restore_plugin st2 item).store = st2 := by
  constructor
  · unfold backup_plugin
    rw [hp]
    exact ⟨rfl, rfl⟩
  · intro st2 item
    exact ⟨rfl, rfl⟩

/-- Witness for C1 at a concrete store holding the two-byte plugin
"Foo". -/
theorem C1_roundtrip_unreachable_witness :
    (getPlugin ⟨[("Foo", [(["a.txt"], [104, 105])])], []⟩ "Foo" =
        some ([(["a.txt"], [104, 105])] : FileTree) ∧
      0 < treeSize ([(["a.txt"], [104, 105])] : FileTree)) ∧
    ((backup_plugin ⟨[("Foo", [(["a.txt"], [104, 105])])], []⟩ "Foo").raised =
        some .nameError ∧
      (backup_plugin ⟨[("Foo", [(["a.txt"], [104, 105])])], []⟩ "Foo").store =
        ⟨[("Foo", [(["a.txt"], [104, 105])])], []⟩) ∧
    ∀ st2 item, (restore_plugin st2 item).raised = some .nameError ∧
      (restore_plugin st2 item).store = st2 :=
  ⟨⟨by decide, by decide⟩,
   C1_roundtrip_unreachable _ _ ([(["a.txt"], [104, 105])] : FileTree)
     (by decide) (by decide)⟩

/-- Claim C2 is false as stated: `delete_plugin` and `disable_plugin`
have no exception handler, so filesystem failures escape the core.
Counterexample: deleting a plugin that does not exist propagates
`FileNotFoundError` out of `delete_plugin`. -/
theorem C2_counterexample :
    ¬ ((delete_plugin ⟨[], []⟩ "Ghost").raised = none) := by decide

/-- Claim C2 (amended): exceptions escape the core on almost every
path.  `backup_plugin`, `restore_plugin`, `recover_from_zip` and
`delete_backup` raise NameError out of the method on every invocation
(their first `log_output` precedes their try blocks); install's
try/except catches the first failure only for the handler's own
logging to re-raise, so every non-Keep install path escapes with
NameError too (shown also for Keep when the target is absent, where
no dialog intervenes); `delete_plugin` and `disable_plugin` have no
handler and propagate filesystem errors directly, raising nothing
only when the move/remove itself succeeds. -/
theorem C2_exception_boundary :
    (∀ st folder, (backup_plugin st folder).raised = some .nameError) ∧
    (∀ st item, (restore_plugin st item).raised = some .nameError) ∧
    (∀ st zf, (recover_from_zip st zf).raised = some .nameError) ∧
    (∀ st item, (delete_backup st item).raised = some .nameError) ∧
    (∀ st name src, (install_plugin_zip st name src .replace).raised = some .nameError) ∧
    (∀ st name src, (install_plugin_folder st name src .replace).raised = some .nameError) ∧
    (install_plugin_zip ⟨[], []⟩ "Foo" (some [(["a.txt"], [104])]) .keep).raised =
      some .nameError ∧
    (∀ st folder, (delete_plugin st folder).raised = none ∨
      (delete_plugin st folder).raised = some .fileNotFound) ∧
    (∀ st folder, (disable_plugin st folder).raised = none ∨
      (disable_plugin st folder).raised = some .fileNotFound ∨
      (disable_plugin st folder).raised = some .osError) ∧
    (delete_plugin ⟨[], []⟩ "Ghost").raised = some .fileNotFound ∧
    (disable_plugin ⟨[], []⟩ "Ghost").raised = some .fileNotFound := by
  refine ⟨?_, ?_, ?_, ?_, ?_, ?_, by decide, ?_, ?_, by decide, by decide⟩
  · intro st folder
    unfold backup_plugin
    cases getPlugin st folder <;> rfl
  · intro st item
    rfl
  · intro st zf
    rfl
  · intro st item
    rfl
  · intro st name src
    unfold install_plugin_zip install_from_zip
    split
    all_goals first
      | contradiction
      | cases src <;> rfl
  · intro st name src
    unfold install_plugin_folder install_from_folder
    split
    all_goals first
      | contradiction
      | cases src <;> rfl
  · intro st folder
    unfold delete_plugin
    cases getPlugin st folder with
    | none => exact Or.inr rfl
    | some t => exact Or.inl rfl
  · intro st folder
    unfold disable_plugin
    cases getPlugin st folder with
    | none => exact Or.inr (Or.inl rfl)
    | some t =>
      simp only []
      cases hb : getBackup st folder with
      | none => exact Or.inl rfl
      | some e => cases e <;> simp [hb]

/-- Claim C3 is false as stated: `delete_plugin` performs no
`log_output` append at all (its log count is 0, not 1). -/
theorem C3_counterexample :
    ¬ ((delete_plugin ⟨[("Foo", [])], []⟩ "Foo").logs.length = 1) := by decide

/-- Claim C3 (amended): the cited mutating operations do not all
perform exactly one log append and one version increment.
`delete_plugin` increments the version once but never appends to the
log; `delete_backup` never increments the version and makes exactly
one in-memory log append before its NameError escapes — the backup
entry is never removed; `backup_plugin` increments once and likewise
makes exactly one in-memory append before its NameError escapes. -/
theorem C3_log_and_version_counts :
    (∀ st folder, (delete_plugin st folder).incs = 1 ∧
      (delete_plugin st folder).logs.length = 0) ∧
    (∀ st item, (delete_backup st item).incs = 0 ∧
      (delete_backup st item).logs.length = 1 ∧
      (delete_backup st item).store = st) ∧
    (∀ st folder, (backup_plugin st folder).incs = 1 ∧
      (backup_plugin st folder).logs.length = 1) := by
  refine ⟨?_, ?_, ?_⟩
  · intro st folder
    unfold delete_plugin
    cases getPlugin st folder <;> exact ⟨rfl, rfl⟩
  · intro st item
    exact ⟨rfl, rfl, rfl⟩
  · intro st folder
    unfold backup_plugin
    cases getPlugin st folder <;> exact ⟨rfl, rfl⟩

/-- Claim C4 is false as stated: answering Keep to the conflict dialog
still increments the version counter, because `install_plugin` calls
`increment_version()` before the conflict check. -/
theorem C4_counterexample :
    ¬ ((install_plugin_zip ⟨[("Foo", [(["a.txt"], [104])])], []⟩ "Foo"
        (some [(["b.txt"], [98])]) .keep).incs = 0) := by decide

/-- Claim C4 (amended): installing onto an existing plugin name with
decision Keep aborts before any filesystem mutation — the store,
including the existing directory's contents, is byte-for-byte
unchanged — and performs no log append; but exactly one version
increment still occurs (it happens before the conflict check). -/
theorem C4_install_keep (st : Store) (name : String) (src : Option FileTree)
    (t : FileTree) (h : getPlugin st name = some t) :
    (install_plugin_zip st name src .keep).store = st ∧
    (install_plugin_zip st name src .keep).logs = [] ∧
    (install_plugin_zip st name src .keep).incs = 1 := by
  unfold install_plugin_zip install_from_zip
  rw [h]
  exact ⟨rfl, rfl, rfl⟩

/-- Witness for C4 at a concrete store holding plugin "Foo". -/
theorem C4_install_keep_witness :
    getPlugin ⟨[("Foo", [(["a.txt"], [104])])], []⟩ "Foo" =
      some ([(["a.txt"], [104])] : FileTree) ∧
    (install_plugin_zip ⟨[("Foo", [(["a.txt"], [104])])], []⟩ "Foo"
        (some [(["b.txt"], [98])]) .keep).store = ⟨[("Foo", [(["a.txt"], [104])])], []⟩ ∧
    (install_plugin_zip ⟨[("Foo", [(["a.txt"], [104])])], []⟩ "Foo"
        (some [(["b.txt"], [98])]) .keep).logs = [] ∧
    (install_plugin_zip ⟨[("Foo", [(["a.txt"], [104])])], []⟩ "Foo"
        (some [(["b.txt"], [98])]) .keep).incs = 1 :=
  ⟨by decide, C4_install_keep _ _ _ ([(["a.txt"], [104])] : FileTree) (by decide)⟩

/-- Claim C6 concerns a code bug: the EmptySource branch is
unreachable.  Backing up an existing zero-byte plugin appends the
line-336 log in memory and raises NameError before `total_size` is
ever computed, so the empty-source warning of lines 349-351 is never
emitted and no EmptySource result is ever returned; the store is
unchanged — no archive is created, which is the one part of the
claimed behaviour the crash preserves. -/
theorem C6_backup_empty_source (st : Store) (folder : String)
    (t : FileTree) (hp : getPlugin st folder = some t) (_hz : treeSize t = 0) :
    (backup_plugin st folder).raised = some .nameError ∧
    (backup_plugin st folder).logs = [.backingUp folder] ∧
    (backup_plugin st folder).store = st := by
  unfold backup_plugin
  rw [hp]
  exact ⟨rfl, rfl, rfl⟩

/-- Witness for C6: a store holding the empty plugin "Empty". -/
theorem C6_backup_empty_source_witness :
    (getPlugin ⟨[("Empty", [])], []⟩ "Empty" = some ([] : FileTree) ∧
      treeSize ([] : FileTree) = 0) ∧
    (backup_plugin ⟨[("Empty", [])], []⟩ "Empty").raised = some .nameError ∧
    (backup_plugin ⟨[("Empty", [])], []⟩ "Empty").logs = [.backingUp "Empty"] ∧
    (backup_plugin ⟨[("Empty", [])], []⟩ "Empty").store = ⟨[("Empty", [])], []⟩ :=
  ⟨⟨by decide, by decide⟩,
   C6_backup_empty_source _ _ ([] : FileTree) (by decide) (by decide)⟩

/-- Claim C10: when the archive cannot be opened (entry absent or
unreadable), `recover_from_zip` fails without deleting or modifying
any existing plugin directory.  In the source text the archive open
(line 552, inside the `with`) precedes the target-exists check and
`rmtree` (553-555); at runtime the method fails even earlier — its
first log (line 541) appends in memory and raises NameError before
the try at 551 — so an unopenable archive leaves the store, in
particular every installed plugin, untouched. -/
theorem C10_recover_unopenable (st : Store) (zf : String)
    (_h : getBackup st zf = none ∨ getBackup st zf = some (.zipFile none)) :
    (recover_from_zip st zf).store = st ∧
    (recover_from_zip st zf).raised = some .nameError ∧
    (recover_from_zip st zf).logs = [.recovering zf] :=
  ⟨rfl, rfl, rfl⟩

/-- Witness for C10: plugin "Foo" installed, backup entry "Foo.zip"
unreadable; recovery leaves "Foo" untouched. -/
theorem C10_recover_unopenable_witness :
    (getBackup ⟨[("Foo", [(["a.txt"], [104])])], [("Foo.zip", .zipFile none)]⟩ "Foo.zip" =
        none ∨
      getBackup ⟨[("Foo", [(["a.txt"], [104])])], [("Foo.zip", .zipFile none)]⟩ "Foo.zip" =
        some (.zipFile none)) ∧
    (recover_from_zip ⟨[("Foo", [(["a.txt"], [104])])], [("Foo.zip", .zipFile none)]⟩
        "Foo.zip").store =
      ⟨[("Foo", [(["a.txt"], [104])])], [("Foo.zip", .zipFile none)]⟩ ∧
    (recover_from_zip ⟨[("Foo", [(["a.txt"], [104])])], [("Foo.zip", .zipFile none)]⟩
        "Foo.zip").raised = some .nameError ∧
    (recover_from_zip ⟨[("Foo", [(["a.txt"], [104])])], [("Foo.zip", .zipFile none)]⟩
        "Foo.zip").logs = [.recovering "Foo.zip"] :=
  ⟨Or.inr (by decide),
   C10_recover_unopenable _ _ (Or.inr (by decide))⟩

/-- Claim C7 concerns a code bug: `log_output` evaluates the
module-level name `MAX_LOG_LINES` (line 209) right after appending,
but the source never defines that name, so every append grows the
in-memory history and then raises `NameError` before any truncation
or persistence can happen; the bounded-retention behaviour the claim
describes is unreachable. -/
theorem C7_log_output_raises :
    ∀ history timestamp message,
      log_output history timestamp message =
        (history ++ ["[" ++ timestamp ++ "] " ++ message], some .nameError) := by
  intro history timestamp message
  rfl

set_option maxRecDepth 1000000 in
/-- Claim C8: `increment_version` on "0.002" yields "0.003"; on any
parseable value it parses, adds the double 0.001 and formats to three
decimals; on a value that does not parse as a number it returns the
prior version unchanged and raises no error. -/
theorem C8_increment_version :
    increment_version "0.002" = "0.003" ∧
    (∀ s v, pyFloatOfString s = some v →
      increment_version s = formatF3 (addPy v float0001)) ∧
    (∀ s, pyFloatOfString s = none → increment_version s = s) := by
  refine ⟨by decide, ?_, ?_⟩
  · intro s v h
    simp [increment_version, h]
  · intro s h
    simp [increment_version, h]

set_option maxRecDepth 1000000 in
/-- Witness for C8 at the corrupted value "not-a-number" and the
parseable value "2.5". -/
theorem C8_increment_version_witness :
    (pyFloatOfString "not-a-number" = none ∧
      increment_version "not-a-number" = "not-a-number") ∧
    (pyFloatOfString "2.5" = some (roundToDouble ⟨25, 10⟩) ∧
      increment_version "2.5" = formatF3 (addPy (roundToDouble ⟨25, 10⟩) float0001)) :=
  ⟨⟨by decide, C8_increment_version.2.2 "not-a-number" (by decide)⟩,
   ⟨by decide, C8_increment_version.2.1 "2.5" _ (by decide)⟩⟩
